import Mathlib

/-!
Verification of the scoped multi-tenant credential and authorization model of the
Shopify data-sync middleware.  JavaScript strings are modelled as `List Char`,
database tables as Lean lists, and request handlers as pure functions from an
explicit database state.  Library cryptography (HMAC digests, AES-256-CBC) is
platform code, not repository code; it enters the model as explicit function
parameters, while every piece of logic written in the repository itself
(lookups, comparisons, splitting, scope checks, handler control flow) is
translated directly from the source.
-/

set_option maxRecDepth 4000

namespace ShopifySync

/-- Model of a JavaScript string: a list of characters. -/
abbrev JStr := List Char

/-- JavaScript `'a:b:c'.split(sep)` for a one-character separator: splits into the
fragments between separator occurrences; the empty string splits to `[""]`. -/
def splitOnChar (sep : Char) : JStr → List JStr
  | [] => [[]]
  | c :: cs =>
    match splitOnChar sep cs with
    | [] => [[]]
    | r :: rs => if c = sep then [] :: r :: rs else (c :: r) :: rs

/-- JavaScript `parts.join(sep)` for a one-character separator. -/
def joinChar (sep : Char) (parts : List JStr) : JStr :=
  List.intercalate [sep] parts

/-- Bool test that `pat` is an initial segment of `s`; models JavaScript
`s.startsWith(pat)` and the prefix test used by first-occurrence replacement. -/
def leadsWith : JStr → JStr → Bool
  | [], _ => true
  | _ :: _, [] => false
  | a :: as, b :: bs => a == b && leadsWith as bs

/-- JavaScript `s.replace(pat, rep)` with a plain (non-empty) string pattern:
replaces only the first occurrence of `pat` in `s`. -/
def jsReplaceFirst (pat rep : JStr) : JStr → JStr
  | [] => []
  | c :: cs =>
    if leadsWith pat (c :: cs) then rep ++ (c :: cs).drop pat.length
    else c :: jsReplaceFirst pat rep cs

/-- The scope-class marker `read_` (source: `scope.startsWith('read_')`). -/
def readMark : JStr := ['r', 'e', 'a', 'd', '_']

/-- The scope-class marker `write_`. -/
def writeMark : JStr := ['w', 'r', 'i', 't', 'e', '_']

/-- Translation of `requireScope` from `src/routes/api.js`: pass if the resolved
scope list contains the required scope; otherwise, if the required scope starts
with `read_`, also pass when the list contains the corresponding `write_` scope;
otherwise reject with 403. `true` means the middleware calls `next()`. -/
def requireScope (scope : JStr) (scopes : List JStr) : Bool :=
  if scopes.contains scope then true
  else if leadsWith readMark scope then
    scopes.contains (jsReplaceFirst readMark writeMark scope)
  else false

/-- Translation of `requireGraphQLScope` from `src/routes/graphql.js`; same
decision written with the negated test first, as in the source. -/
def requireGraphQLScope (scope : JStr) (scopes : List JStr) : Bool :=
  if !(scopes.contains scope) then
    if leadsWith readMark scope then
      scopes.contains (jsReplaceFirst readMark writeMark scope)
    else false
  else true

theorem leadsWith_self_append (pat x : JStr) : leadsWith pat (pat ++ x) = true := by
  induction pat with
  | nil => rfl
  | cons a as ih => simp [leadsWith, ih]

theorem jsReplaceFirst_read (x : JStr) :
    jsReplaceFirst readMark writeMark (readMark ++ x) = writeMark ++ x := by
  have h := leadsWith_self_append readMark x
  simp only [readMark, writeMark, List.cons_append, List.nil_append] at h ⊢
  rw [jsReplaceFirst, if_pos h]
  rfl

theorem leadsWith_read_write (x : JStr) : leadsWith readMark (writeMark ++ x) = false := by
  rfl

/-- C3: for every resolved scope list and every resource suffix `x`, a `read_x`
requirement is satisfied exactly when the list contains `read_x` or `write_x`,
and a `write_x` requirement is satisfied exactly when the list contains
`write_x`; this holds for both the REST middleware `requireScope` and the
GraphQL middleware `requireGraphQLScope`. -/
theorem scope_check_characterization (x : JStr) (scopes : List JStr) :
    (requireScope (readMark ++ x) scopes
      = (scopes.contains (readMark ++ x) || scopes.contains (writeMark ++ x))) ∧
    (requireScope (writeMark ++ x) scopes = scopes.contains (writeMark ++ x)) ∧
    (requireGraphQLScope (readMark ++ x) scopes
      = (scopes.contains (readMark ++ x) || scopes.contains (writeMark ++ x))) ∧
    (requireGraphQLScope (writeMark ++ x) scopes = scopes.contains (writeMark ++ x)) := by
  have hpre : leadsWith readMark (readMark ++ x) = true := leadsWith_self_append _ _
  have hrep : jsReplaceFirst readMark writeMark (readMark ++ x) = writeMark ++ x :=
    jsReplaceFirst_read x
  have hwr : leadsWith readMark (writeMark ++ x) = false := leadsWith_read_write x
  refine ⟨?_, ?_, ?_, ?_⟩
  · cases hc : scopes.contains (readMark ++ x) <;>
      simp [requireScope, hpre, hrep] at hc ⊢ <;> simp [hc]
  · cases hc : scopes.contains (writeMark ++ x) <;>
      simp [requireScope, hwr] at hc ⊢ <;> simp [hc]
  · cases hc : scopes.contains (readMark ++ x) <;>
      simp [requireGraphQLScope, hpre, hrep] at hc ⊢ <;> simp [hc]
  · cases hc : scopes.contains (writeMark ++ x) <;>
      simp [requireGraphQLScope, hwr] at hc ⊢ <;> simp [hc]

/-- Row of the `stores` table (one Tenant per installed store). `access_token`
holds the ciphertext produced by `encrypt`, exactly as stored. -/
structure Store where
  id : Nat
  shop_domain : JStr
  access_token : JStr
  scopes : JStr
  is_active : Bool
deriving DecidableEq

/-- Row of the `api_keys` table. `api_key` holds the keyed hash of the public
key; `api_secret` holds the encrypted secret. -/
structure ApiKeyRow where
  id : Nat
  store_id : Nat
  api_key : JStr
  api_secret : JStr
  name : JStr
  scopes : JStr
  is_active : Bool
  last_used_at : Option Nat
  created_at : Nat
deriving DecidableEq

/-- Row of the `sync_logs` table (append-only Activity Record). -/
structure SyncLog where
  store_id : Nat
  api_key_id : Option Nat
  action : JStr
  resource_type : JStr
  resource_id : Option JStr
  status : JStr
  details : Option JStr
  created_at : Nat
deriving DecidableEq

/-- Row of the `webhooks` table (platform webhook registration). -/
structure WebhookRow where
  store_id : Nat
  webhook_id : Nat
  topic : JStr
  address : JStr
deriving DecidableEq

/-- Database state, plus the clock used for `CURRENT_TIMESTAMP` / `NOW()` and the
next serial id handed out by an insert into `api_keys`. -/
structure DB where
  stores : List Store
  api_keys : List ApiKeyRow
  sync_logs : List SyncLog
  webhooks : List WebhookRow
  now : Nat
  nextKeyId : Nat
deriving DecidableEq

/-- Library cryptography from `src/utils/crypto.js`, abstracted as functions:
`hashApiKey` is the keyed HMAC-SHA256 hex digest used for lookups, and
`encryptStr`/`decryptStr` are IV-carrying AES-256-CBC encryption and decryption
of strings under the process master secret (`decryptStr` inverts `encryptStr`).
The logic written in the repository is modelled concretely below; only these
platform primitives are parameters. -/
structure CryptoModel where
  hashApiKey : JStr → JStr
  encryptStr : JStr → JStr
  decryptStr : JStr → JStr

/-- Joined row returned by `ApiKeyService.getApiKeyByKey`: all `api_keys` columns
plus the store's `shop_domain` and its (decrypted) `access_token`. -/
structure KeyData where
  id : Nat
  store_id : Nat
  api_key : JStr
  api_secret : JStr
  name : JStr
  scopes : JStr
  is_active : Bool
  shop_domain : JStr
  access_token : JStr
deriving DecidableEq

/-- Translation of `ApiKeyService.getApiKeyByKey`: hash the presented key, join
`api_keys` with `stores` on `store_id`, keep rows where the stored hash equals
the presented hash and both the key and the store are active, take the first
row, and decrypt the store's access token.  Note that the presented secret is
not an input: the query never consults `api_secret`. -/
def getApiKeyByKey (cm : CryptoModel) (db : DB) (apiKey : JStr) : Option KeyData :=
  let hashed := cm.hashApiKey apiKey
  let rows := db.api_keys.flatMap (fun ak =>
    (db.stores.filter (fun s =>
      ak.store_id == s.id && ak.api_key == hashed && ak.is_active && s.is_active)).map
      (fun s => (ak, s)))
  match rows.head? with
  | none => none
  | some (ak, s) =>
    some { id := ak.id, store_id := ak.store_id, api_key := ak.api_key,
           api_secret := ak.api_secret, name := ak.name, scopes := ak.scopes,
           is_active := ak.is_active, shop_domain := s.shop_domain,
           access_token := cm.decryptStr s.access_token }

/-- Translation of `ApiKeyService.updateLastUsed`: set `last_used_at` to the
current timestamp on the matching row. -/
def updateLastUsed (db : DB) (apiKeyId : Nat) : DB :=
  { db with api_keys := db.api_keys.map (fun ak =>
      if ak.id == apiKeyId then { ak with last_used_at := some db.now } else ak) }

/-- Request context attached by the authentication middleware on success
(`req.apiKeyId`, `req.storeId`, `req.shopDomain`, `req.accessToken`,
`req.scopes`). -/
structure ReqCtx where
  apiKeyId : Nat
  storeId : Nat
  shopDomain : JStr
  accessToken : JStr
  scopes : List JStr
deriving DecidableEq

/-- Outcome of the `verifyApiKey` middleware: 401 missing credentials, 401
invalid key, 500 authentication failure from a thrown exception, or `next()`
with the attached context. -/
inductive AuthOutcome where
  | missingCreds
  | invalidKey
  | authError
  | proceed (ctx : ReqCtx)
deriving DecidableEq

/-- JavaScript truthiness of an optional string header: absent and empty are
both falsy. -/
def jsTruthy : Option JStr → Option JStr
  | none => none
  | some [] => none
  | some (c :: cs) => some (c :: cs)

/-- Translation of `verifyApiKey` from `src/middleware/auth.js`.  `touchFails`
models the `UPDATE api_keys SET last_used_at ...` query throwing; the `await`
sits inside the same `try` as the lookup, so a throw is caught and answered
with a 500.  The presented secret is only checked for presence; its value is
never compared against the stored secret. -/
def verifyApiKey (cm : CryptoModel) (db : DB) (touchFails : Bool)
    (hApiKey hApiSecret : Option JStr) : AuthOutcome × DB :=
  match jsTruthy hApiKey, jsTruthy hApiSecret with
  | some apiKey, some _presentedSecret =>
    match getApiKeyByKey cm db apiKey with
    | none => (.invalidKey, db)
    | some kd =>
      if touchFails then (.authError, db)
      else
        (.proceed { apiKeyId := kd.id, storeId := kd.store_id,
                    shopDomain := kd.shop_domain, accessToken := kd.access_token,
                    scopes := splitOnChar ',' kd.scopes },
         updateLastUsed db kd.id)
  | _, _ => (.missingCreds, db)

/-- Translation of `StoreService.getStoreByDomain`: first active store with the
domain, access token decrypted before returning. -/
def getStoreByDomain (cm : CryptoModel) (db : DB) (domain : JStr) : Option Store :=
  ((db.stores.filter (fun s => s.shop_domain == domain && s.is_active)).head?).map
    (fun s => { s with access_token := cm.decryptStr s.access_token })

/-- Translation of `StoreService.getStoreById`. -/
def getStoreById (cm : CryptoModel) (db : DB) (storeId : Nat) : Option Store :=
  ((db.stores.filter (fun s => s.id == storeId && s.is_active)).head?).map
    (fun s => { s with access_token := cm.decryptStr s.access_token })

/-- Translation of `StoreService.deactivateStore`: set `is_active = false` on
every store with the domain; deletes nothing. -/
def deactivateStore (db : DB) (domain : JStr) : DB :=
  { db with stores := db.stores.map (fun s =>
      if s.shop_domain == domain then { s with is_active := false } else s) }

/-- Translation of the database effect of `WebhookService.unregisterWebhooks`:
delete the store's webhook registrations (the upstream deletions are network
calls with no local state). -/
def unregisterWebhooks (db : DB) (storeId : Nat) : DB :=
  { db with webhooks := db.webhooks.filter (fun w => !(w.store_id == storeId)) }

/-- Translation of the `POST /auth/uninstall` handler in `src/routes/auth.js`:
read the shop domain header, and if an active store matches, unregister its
webhooks and deactivate it.  The handler takes no MAC header and performs no
MAC verification; the only gate is presence of the header. -/
def authUninstall (cm : CryptoModel) (db : DB) (shopHeader : Option JStr) : Nat × DB :=
  match jsTruthy shopHeader with
  | none => (400, db)
  | some shop =>
    match getStoreByDomain cm db shop with
    | some store => (200, deactivateStore (unregisterWebhooks db store.id) shop)
    | none => (200, db)

/-- Outcome of a webhook delivery through the `/webhooks` router. -/
inductive WebhookOutcome where
  | unauthorized
  | storeNotFound
  | handled (db : DB)
deriving DecidableEq

/-- Translation of `verifyWebhookMiddleware` composed with the
`POST /webhooks/app-uninstalled` handler from `src/routes/webhooks.js`: the MAC
recomputed over the raw body (under the platform shared secret `secret`, with
`mac` the keyed HMAC-SHA256 base64 digest) must equal the header before the
store is resolved and deactivated. -/
def appUninstalledWebhook (cm : CryptoModel) (mac : JStr → JStr → JStr) (secret : JStr)
    (db : DB) (rawBody : JStr) (hmacHeader shopHeader : Option JStr) : WebhookOutcome :=
  match jsTruthy hmacHeader, jsTruthy shopHeader with
  | some hmacH, some shop =>
    if mac secret rawBody == hmacH then
      match getStoreByDomain cm db shop with
      | none => .storeNotFound
      | some store => .handled (deactivateStore db store.shop_domain)
    else .unauthorized
  | _, _ => .unauthorized

/-- Translation of `ApiKeyService.createApiKey`: the freshly generated public
key and secret are inputs (randomness made explicit); the row stores the hashed
key and the encrypted secret and is active by default. -/
def createApiKey (cm : CryptoModel) (db : DB) (storeId : Nat)
    (name scopes freshKey freshSecret : JStr) : ApiKeyRow × DB :=
  let row : ApiKeyRow :=
    { id := db.nextKeyId, store_id := storeId, api_key := cm.hashApiKey freshKey,
      api_secret := cm.encryptStr freshSecret, name := name, scopes := scopes,
      is_active := true, last_used_at := none, created_at := db.now }
  (row, { db with api_keys := db.api_keys ++ [row], nextKeyId := db.nextKeyId + 1 })

/-- Result of the admin credential-management handlers.  A session token is
`none` when the Authorization header is absent, `some none` when `jwt.verify`
throws, and `some (some storeId)` when it verifies. -/
inductive AdminResult where
  | unauthorized
  | badRequest
  | serverError
  | notFound
  | created (row : ApiKeyRow) (rawKey rawSecret : JStr)
  | deleted
deriving DecidableEq

/-- Translation of the `POST /api/admin/api-keys` handler (routes/admin.js):
401 without a token, 400 on missing/empty `name` or `scopes`, 500 when
`jwt.verify` throws, 404 when the store is not found, otherwise create the key
with the caller-supplied scopes.  No check relates `scopes` to the store's
granted scopes. -/
def adminCreateApiKey (cm : CryptoModel) (db : DB) (token : Option (Option Nat))
    (name scopes freshKey freshSecret : JStr) : AdminResult × DB :=
  match token with
  | none => (.unauthorized, db)
  | some tok =>
    if name == ([] : JStr) then (.badRequest, db)
    else if scopes == ([] : JStr) then (.badRequest, db)
    else
      match tok with
      | none => (.serverError, db)
      | some storeId =>
        match getStoreById cm db storeId with
        | none => (.notFound, db)
        | some store =>
          let apiKeyScopes := if scopes == ([] : JStr) then store.scopes else scopes
          let rd := createApiKey cm db store.id name apiKeyScopes freshKey freshSecret
          (.created rd.1 freshKey freshSecret, rd.2)

/-- Translation of `ApiKeyService.deleteApiKey`: delete rows matching both the
key id and the store id; report whether any row was deleted (`rowCount > 0`).
No-match is an ordinary `false` result, not an error. -/
def deleteApiKey (db : DB) (apiKeyId storeId : Nat) : Bool × DB :=
  (db.api_keys.any (fun ak => ak.id == apiKeyId && ak.store_id == storeId),
   { db with api_keys := db.api_keys.filter (fun ak =>
       !(ak.id == apiKeyId && ak.store_id == storeId)) })

/-- Translation of the `DELETE /api/admin/api-keys/:id` handler: the session's
store id scopes the delete; a `false` from the service is answered 404. -/
def adminDeleteApiKey (db : DB) (token : Option (Option Nat)) (apiKeyId : Nat) :
    AdminResult × DB :=
  match token with
  | none => (.unauthorized, db)
  | some none => (.serverError, db)
  | some (some storeId) =>
    let (ok, db') := deleteApiKey db apiKeyId storeId
    if ok then (.deleted, db') else (.notFound, db)

/-- Insertion of a log line into a list sorted by `created_at` descending. -/
def insertByCreatedDesc (x : SyncLog) : List SyncLog → List SyncLog
  | [] => [x]
  | y :: ys =>
    if y.created_at < x.created_at then x :: y :: ys else y :: insertByCreatedDesc x ys

/-- Model of `ORDER BY created_at DESC`. -/
def sortByCreatedDesc : List SyncLog → List SyncLog
  | [] => []
  | x :: xs => insertByCreatedDesc x (sortByCreatedDesc xs)

/-- Translation of `SyncLogService.getLogsByStore`: the store's log lines,
newest first, with `LIMIT`/`OFFSET`. -/
def getLogsByStore (db : DB) (storeId limit offset : Nat) : List SyncLog :=
  ((sortByCreatedDesc (db.sync_logs.filter (fun l => l.store_id == storeId))).drop
      offset).take limit

/-- Grouping key of the activity summary: resource type, action, status. -/
abbrev SummaryKey := JStr × JStr × JStr

/-- Insertion into a list of grouped counts sorted by count descending. -/
def insertByCountDesc (x : SummaryKey × Nat) :
    List (SummaryKey × Nat) → List (SummaryKey × Nat)
  | [] => [x]
  | y :: ys => if y.2 < x.2 then x :: y :: ys else y :: insertByCountDesc x ys

/-- Model of `ORDER BY count DESC`. -/
def sortByCountDesc : List (SummaryKey × Nat) → List (SummaryKey × Nat)
  | [] => []
  | x :: xs => insertByCountDesc x (sortByCountDesc xs)

/-- Translation of `SyncLogService.getActivitySummary`: log lines of the store
inside the trailing window of `hours` hours, grouped by resource type, action
and status into counts, largest first. -/
def getActivitySummary (db : DB) (storeId hours : Nat) : List (SummaryKey × Nat) :=
  let rows := db.sync_logs.filter (fun l =>
    l.store_id == storeId && ((db.now : Int) - (hours : Int) * 3600 < (l.created_at : Int)))
  let keys := (rows.map (fun l => (l.resource_type, l.action, l.status))).dedup
  sortByCountDesc (keys.map (fun k =>
    (k, (rows.filter (fun l => (l.resource_type, l.action, l.status) == k)).length)))

/-- Translation of the `GET /api/logs` route: rate limiter aside, the chain is
`verifyApiKey` followed directly by the handler; no scope middleware is
attached.  Returns the HTTP status and the body's log lines. -/
def logsEndpoint (cm : CryptoModel) (db : DB) (touchFails : Bool)
    (hApiKey hApiSecret : Option JStr) (limit offset : Nat) : Nat × List SyncLog :=
  match verifyApiKey cm db touchFails hApiKey hApiSecret with
  | (.proceed ctx, db') => (200, getLogsByStore db' ctx.storeId limit offset)
  | (.missingCreds, _) => (401, [])
  | (.invalidKey, _) => (401, [])
  | (.authError, _) => (500, [])

/-- Translation of the `GET /api/stats` route: `verifyApiKey` followed directly
by the handler; no scope middleware is attached. -/
def statsEndpoint (cm : CryptoModel) (db : DB) (touchFails : Bool)
    (hApiKey hApiSecret : Option JStr) (hours : Nat) : Nat × List (SummaryKey × Nat) :=
  match verifyApiKey cm db touchFails hApiKey hApiSecret with
  | (.proceed ctx, db') => (200, getActivitySummary db' ctx.storeId hours)
  | (.missingCreds, _) => (401, [])
  | (.invalidKey, _) => (401, [])
  | (.authError, _) => (500, [])

/-- Lowercase hex digit of a value below 16 (`Buffer.toString('hex')`). -/
def toHexChar (n : Nat) : Char :=
  if n < 10 then Char.ofNat (48 + n) else Char.ofNat (87 + n)

/-- Hex encoding of one byte: two lowercase digits. -/
def byteToHex (b : Nat) : JStr :=
  [toHexChar (b / 16), toHexChar (b % 16)]

/-- Hex encoding of a byte sequence. -/
def bytesToHex : List Nat → JStr
  | [] => []
  | b :: bs => byteToHex b ++ bytesToHex bs

/-- Value of a lowercase hex digit (`Buffer.from(s, 'hex')`). -/
def hexVal (c : Char) : Nat :=
  if 97 ≤ c.toNat then c.toNat - 87 else c.toNat - 48

/-- Hex decoding: consume digit pairs. -/
def hexToBytes : JStr → List Nat
  | a :: b :: rest => (hexVal a * 16 + hexVal b) :: hexToBytes rest
  | _ => []

/-- Translation of `encrypt` from `src/utils/crypto.js`: with `cipherEnc` the
AES-256-CBC encryption under the derived master key (a platform primitive,
taking the random IV and the plaintext bytes), the output is
`iv.toString('hex') + ':' + encrypted-hex`, so decryption is self-contained. -/
def encrypt (cipherEnc : List Nat → List Nat → List Nat) (iv text : List Nat) : JStr :=
  bytesToHex iv ++ ':' :: bytesToHex (cipherEnc iv text)

/-- Translation of `decrypt` from `src/utils/crypto.js`: split on `':'`, parse
the first part as the IV, rejoin the remaining parts with `':'` as the
ciphertext hex, and apply the AES decryption `cipherDec`. -/
def decrypt (cipherDec : List Nat → List Nat → List Nat) (text : JStr) : List Nat :=
  let parts := splitOnChar ':' text
  let iv := hexToBytes (parts.headD [])
  let encrypted := joinChar ':' parts.tail
  cipherDec iv (hexToBytes encrypted)

/-- Translation of `verifyWebhook` from `src/utils/shopify.js`: recompute the
keyed MAC (`mac`, the platform's HMAC-SHA256 base64 digest) under the shared
secret over the body exactly as passed, and compare with the provided header. -/
def verifyWebhook (mac : JStr → JStr → JStr) (secret data hmacHeader : JStr) : Bool :=
  mac secret data == hmacHeader

/-- Concrete crypto instance for closed evaluations: hashing tags with `H`,
encryption tags with `E`, decryption strips the tag. -/
def cm0 : CryptoModel :=
  { hashApiKey := fun s => 'H' :: s,
    encryptStr := fun s => 'E' :: s,
    decryptStr := fun s => s.drop 1 }

/-- Concrete installed store fixture. -/
def store0 : Store :=
  { id := 1, shop_domain := "shop1.myshopify.com".data,
    access_token := 'E' :: "tok".data, scopes := "read_orders".data, is_active := true }

/-- Concrete issued credential fixture owned by `store0`: stored hashed key and
encrypted secret for the pair (`sk_live`, `realsecret`). -/
def keyRow0 : ApiKeyRow :=
  { id := 1, store_id := 1, api_key := 'H' :: "sk_live".data,
    api_secret := 'E' :: "realsecret".data, name := "Portal A".data,
    scopes := "read_orders".data, is_active := true, last_used_at := none, created_at := 0 }

/-- Concrete activity record fixture. -/
def log0 : SyncLog :=
  { store_id := 1, api_key_id := some 1, action := "READ".data,
    resource_type := "order".data, resource_id := none, status := "success".data,
    details := none, created_at := 5 }

/-- Concrete database fixture. -/
def db0 : DB :=
  { stores := [store0], api_keys := [keyRow0], sync_logs := [log0], webhooks := [],
    now := 100, nextKeyId := 2 }

/-- Joined row that `getApiKeyByKey` resolves for `sk_live` in `db0`. -/
def kd0 : KeyData :=
  { id := 1, store_id := 1, api_key := 'H' :: "sk_live".data,
    api_secret := 'E' :: "realsecret".data, name := "Portal A".data,
    scopes := "read_orders".data, is_active := true,
    shop_domain := "shop1.myshopify.com".data, access_token := "tok".data }

/-- C1: the claim fails on the code.  With the credential (`sk_live`,
`realsecret`) issued and stored (hashed key, encrypted secret), a request
presenting the correct public key together with the wrong secret `WRONG` is
not rejected: `getApiKeyByKey` resolves by hashed key alone, the stored secret
is never decrypted or compared, and the middleware attaches the context and
calls `next()`. -/
theorem wrongSecret_authenticates :
    cm0.decryptStr keyRow0.api_secret = "realsecret".data ∧
    ("WRONG".data : JStr) ≠ "realsecret".data ∧
    (verifyApiKey cm0 db0 false (some ("sk_live".data)) (some ("WRONG".data))).1 =
      .proceed { apiKeyId := 1, storeId := 1, shopDomain := "shop1.myshopify.com".data,
                 accessToken := "tok".data, scopes := ["read_orders".data] } := by
  refine ⟨rfl, by decide, by decide⟩

/-- C2: the claim fails on the code.  The `POST /auth/uninstall` handler takes
no MAC input at all: a request carrying only the shop-domain header of an
active store is answered 200 and the store is deactivated, with no MAC
verification preceding the state change. -/
theorem authUninstall_deactivates_without_mac :
    store0.is_active = true ∧
    (authUninstall cm0 db0 (some ("shop1.myshopify.com".data))).1 = 200 ∧
    ((authUninstall cm0 db0 (some ("shop1.myshopify.com".data))).2.stores.map
      Store.is_active) = [false] := by
  refine ⟨rfl, by decide, by decide⟩

theorem jsTruthy_some (s : JStr) (h : s ≠ []) : jsTruthy (some s) = some s := by
  cases s with
  | nil => exact absurd rfl h
  | cons c cs => rfl

/-- Helper: behaviour of the authentication middleware once the key resolves,
for both outcomes of the last-used update. -/
theorem verifyApiKey_resolved (cm : CryptoModel) (db : DB) (k s : JStr)
    (hk : k ≠ []) (hs : s ≠ []) (kd : KeyData)
    (hres : getApiKeyByKey cm db k = some kd) :
    (verifyApiKey cm db true (some k) (some s)).1 = .authError ∧
    verifyApiKey cm db false (some k) (some s) =
      (.proceed { apiKeyId := kd.id, storeId := kd.store_id, shopDomain := kd.shop_domain,
                  accessToken := kd.access_token, scopes := splitOnChar ',' kd.scopes },
       updateLastUsed db kd.id) := by
  unfold verifyApiKey
  rw [jsTruthy_some k hk, jsTruthy_some s hs]
  simp [hres]

/-- C6 counterexample: the claim fails on the code.  With a credential that
resolves successfully, a throwing last-used update is caught by the same
`try`/`catch` as the lookup and the request is answered 500: it does not
proceed to scope authorization. -/
theorem touchFailure_rejects_request :
    getApiKeyByKey cm0 db0 ("sk_live".data) = some kd0 ∧
    (verifyApiKey cm0 db0 true (some ("sk_live".data)) (some ("realsecret".data))).1 =
      .authError := by
  refine ⟨by decide, by decide⟩

/-- C6 amended: after successful credential resolution, a failure of the
last-used-timestamp update causes the in-flight request to be rejected with a
500 authentication error; only when the update succeeds does the request
proceed (with the resolved context attached and the timestamp written). -/
theorem verifyApiKey_touch_behavior (cm : CryptoModel) (db : DB) (k s : JStr)
    (hk : k ≠ []) (hs : s ≠ []) (kd : KeyData)
    (hres : getApiKeyByKey cm db k = some kd) :
    (verifyApiKey cm db true (some k) (some s)).1 = .authError ∧
    verifyApiKey cm db false (some k) (some s) =
      (.proceed { apiKeyId := kd.id, storeId := kd.store_id, shopDomain := kd.shop_domain,
                  accessToken := kd.access_token, scopes := splitOnChar ',' kd.scopes },
       updateLastUsed db kd.id) :=
  verifyApiKey_resolved cm db k s hk hs kd hres

/-- Witness instantiating the amended C6 statement on the concrete fixture. -/
theorem verifyApiKey_touch_behavior_witness :
    getApiKeyByKey cm0 db0 ("sk_live".data) = some kd0 ∧
    (verifyApiKey cm0 db0 true (some ("sk_live".data)) (some ("x".data))).1 = .authError :=
  ⟨by decide,
   (verifyApiKey_touch_behavior cm0 db0 ("sk_live".data) ("x".data)
     (by decide) (by decide) kd0 (by decide)).1⟩

/-- C4: deactivating a tenant invalidates all its credentials on the next
request and deletes nothing.  The ownership hypothesis states that every stored
hash equal to the presented key's hash belongs to a key whose store carries the
deactivated domain (hashed lookups resolve only to that tenant's rows).  After
`deactivateStore`, the hashed lookup returns no match, the middleware answers
401 for either outcome of the last-used update, and the `api_keys` and
`sync_logs` tables are untouched. -/
theorem deactivate_invalidates_credentials (cm : CryptoModel) (db : DB)
    (domain k s : JStr) (hk : k ≠ []) (hs : s ≠ [])
    (hown : ∀ ak ∈ db.api_keys, ak.api_key = cm.hashApiKey k →
      ∀ st ∈ db.stores, st.id = ak.store_id → st.shop_domain = domain) :
    getApiKeyByKey cm (deactivateStore db domain) k = none ∧
    (∀ tf : Bool,
      (verifyApiKey cm (deactivateStore db domain) tf (some k) (some s)).1 = .invalidKey) ∧
    (deactivateStore db domain).api_keys = db.api_keys ∧
    (deactivateStore db domain).sync_logs = db.sync_logs := by
  have hnone : getApiKeyByKey cm (deactivateStore db domain) k = none := by
    have hrows : ((deactivateStore db domain).api_keys.flatMap (fun ak =>
        ((deactivateStore db domain).stores.filter (fun st =>
          ak.store_id == st.id && ak.api_key == cm.hashApiKey k &&
            ak.is_active && st.is_active)).map (fun st => (ak, st)))) = [] := by
      rw [List.flatMap_eq_nil_iff]
      intro ak hak
      rw [List.map_eq_nil_iff, List.filter_eq_nil_iff]
      intro st' hst'
      have hak' : ak ∈ db.api_keys := hak
      have hst'' : st' ∈ db.stores.map (fun st =>
          if st.shop_domain == domain then { st with is_active := false } else st) := hst'
      obtain ⟨st, hst, heq⟩ := List.mem_map.1 hst''
      by_cases hd : st.shop_domain = domain
      · subst heq
        simp [hd]
      · subst heq
        simp only [show (st.shop_domain == domain) = false by simp [hd], if_neg]
        intro hcond
        simp only [Bool.and_eq_true, beq_iff_eq] at hcond
        exact hd (hown ak hak' hcond.1.1.2 st hst hcond.1.1.1.symm)
    unfold getApiKeyByKey
    dsimp only
    rw [hrows]
    rfl
  refine ⟨hnone, ?_, rfl, rfl⟩
  intro tf
  unfold verifyApiKey
  rw [jsTruthy_some k hk, jsTruthy_some s hs]
  simp [hnone]

/-- Witness instantiating C4 on the concrete fixture. -/
theorem deactivate_invalidates_credentials_witness :
    getApiKeyByKey cm0 db0 ("sk_live".data) = some kd0 ∧
    getApiKeyByKey cm0 (deactivateStore db0 ("shop1.myshopify.com".data)) ("sk_live".data)
      = none ∧
    (deactivateStore db0 ("shop1.myshopify.com".data)).api_keys = db0.api_keys :=
  ⟨by decide,
   (deactivate_invalidates_credentials cm0 db0 ("shop1.myshopify.com".data)
     ("sk_live".data) ("x".data) (by decide) (by decide) (by decide)).1,
   (deactivate_invalidates_credentials cm0 db0 ("shop1.myshopify.com".data)
     ("sk_live".data) ("x".data) (by decide) (by decide) (by decide)).2.2.1⟩

/-- Scope set denoted by a comma-separated scope string. -/
def scopeSet (s : JStr) : List JStr := splitOnChar ',' s

/-- Bool test that the scope set of `a` is a subset of the scope set of `b`
(the containment the specification requires at creation time). -/
def scopeSubsetOf (a b : JStr) : Bool :=
  (scopeSet a).all (fun x => (scopeSet b).contains x)

/-- Bool test that an admin handler result is a successful creation. -/
def isCreated : AdminResult → Bool
  | .created _ _ _ => true
  | _ => false

/-- C5 counterexample: the claim fails on the code.  The tenant's granted
scope set is `read_orders` only, yet a creation request for scopes
`write_products` succeeds and persists a credential whose scope set is not a
subset of the tenant's grant: no subset check exists in the handler or the
service. -/
theorem createApiKey_subset_not_enforced :
    scopeSubsetOf ("write_products".data) store0.scopes = false ∧
    isCreated (adminCreateApiKey cm0 db0 (some (some 1)) ("Portal B".data)
      ("write_products".data) ("sk_new".data) ("newsecret".data)).1 = true ∧
    ((adminCreateApiKey cm0 db0 (some (some 1)) ("Portal B".data) ("write_products".data)
        ("sk_new".data) ("newsecret".data)).2.api_keys.any (fun ak =>
      ak.scopes == "write_products".data && !(scopeSubsetOf ak.scopes store0.scopes)))
      = true := by
  refine ⟨by decide, by decide, by decide⟩

/-- C5 amended: every credential successfully created via the management
action has a non-empty name and a non-empty scope string, both taken verbatim
from the request, and exactly that one row is appended; a request with an
empty name or empty scope string fails with nothing persisted.  The subset
constraint against the tenant's granted scopes is not enforced at creation. -/
theorem adminCreateApiKey_validation (cm : CryptoModel) (db : DB)
    (token : Option (Option Nat)) (name scopes freshKey freshSecret : JStr) :
    (∀ row rk rs db', adminCreateApiKey cm db token name scopes freshKey freshSecret
        = (.created row rk rs, db') →
      name ≠ [] ∧ scopes ≠ [] ∧ row.name = name ∧ row.scopes = scopes ∧
      db'.api_keys = db.api_keys ++ [row]) ∧
    ((name = [] ∨ scopes = []) →
      (adminCreateApiKey cm db token name scopes freshKey freshSecret).2 = db ∧
      isCreated (adminCreateApiKey cm db token name scopes freshKey freshSecret).1
        = false) := by
  constructor
  · intro row rk rs db' h
    unfold adminCreateApiKey at h
    split at h
    · simp at h
    · split at h
      · simp at h
      · split at h
        · simp at h
        · rename_i hname hscopes
          split at h
          · simp at h
          · rename_i storeId
            split at h
            · simp at h
            · rename_i store hstore
              unfold createApiKey at h
              dsimp only at h
              simp only [Prod.mk.injEq, AdminResult.created.injEq] at h
              obtain ⟨⟨hrow, -, -⟩, hdb⟩ := h
              subst hrow
              subst hdb
              refine ⟨by simpa using hname, by simpa using hscopes, rfl, rfl, rfl⟩
  · intro hempty
    unfold adminCreateApiKey
    split
    · exact ⟨rfl, rfl⟩
    · rcases hempty with he | he <;> subst he <;> simp [isCreated]

/-- Witness instantiating the amended C5 statement: an empty name is rejected
with nothing persisted. -/
theorem adminCreateApiKey_validation_witness :
    (([] : JStr) = [] ∨ ("read_orders".data : JStr) = []) ∧
    (adminCreateApiKey cm0 db0 (some (some 1)) [] ("read_orders".data) ("k".data)
      ("s".data)).2 = db0 :=
  ⟨Or.inl rfl,
   ((adminCreateApiKey_validation cm0 db0 (some (some 1)) [] ("read_orders".data)
     ("k".data) ("s".data)).2 (Or.inl rfl)).1⟩

/-- C9: `deleteApiKey` deletes exactly the rows matching both the credential
id and the owning tenant's id, returns `true` exactly when such a row existed,
returns `false` (not an error) otherwise leaving the table unchanged, and
never touches other tables or non-matching credentials. -/
theorem deleteApiKey_spec (db : DB) (apiKeyId storeId : Nat) :
    ((deleteApiKey db apiKeyId storeId).1 = true ↔
      ∃ ak ∈ db.api_keys, ak.id = apiKeyId ∧ ak.store_id = storeId) ∧
    ((deleteApiKey db apiKeyId storeId).1 = false →
      (deleteApiKey db apiKeyId storeId).2 = db) ∧
    ((deleteApiKey db apiKeyId storeId).2.api_keys
      = db.api_keys.filter (fun ak => !(ak.id == apiKeyId && ak.store_id == storeId))) ∧
    (deleteApiKey db apiKeyId storeId).2.stores = db.stores ∧
    (deleteApiKey db apiKeyId storeId).2.sync_logs = db.sync_logs := by
  refine ⟨?_, ?_, rfl, rfl, rfl⟩
  · simp [deleteApiKey, List.any_eq_true]
  · intro h
    have hall : ∀ ak ∈ db.api_keys,
        (ak.id == apiKeyId && ak.store_id == storeId) = false := by
      intro ak hak
      cases hcase : (ak.id == apiKeyId && ak.store_id == storeId) with
      | false => rfl
      | true =>
        exfalso
        have hany : (db.api_keys.any
            (fun ak => ak.id == apiKeyId && ak.store_id == storeId)) = true :=
          List.any_eq_true.mpr ⟨ak, hak, hcase⟩
        have h' : (db.api_keys.any
            (fun ak => ak.id == apiKeyId && ak.store_id == storeId)) = false := h
        rw [h'] at hany
        exact Bool.false_ne_true hany
    have hfil : db.api_keys.filter
        (fun ak => !(ak.id == apiKeyId && ak.store_id == storeId)) = db.api_keys :=
      List.filter_eq_self.mpr (fun ak hak => by rw [hall ak hak]; rfl)
    unfold deleteApiKey
    dsimp only
    rw [hfil]

/-- Witness instantiating C9: deleting a missing credential id returns false
and changes nothing; deleting an existing credential under its owning tenant
returns true. -/
theorem deleteApiKey_spec_witness :
    (deleteApiKey db0 99 1).1 = false ∧ (deleteApiKey db0 99 1).2 = db0 ∧
    (deleteApiKey db0 1 1).1 = true :=
  ⟨by decide, (deleteApiKey_spec db0 99 1).2.1 (by decide),
   (deleteApiKey_spec db0 1 1).1.mpr ⟨keyRow0, by decide, rfl, rfl⟩⟩

/-- C7: webhook verification recomputes the keyed MAC over the exact body
bytes passed (the captured raw body) and compares with the provided header.
For any keyed MAC `mac` that is collision-free in the body under the shared
secret (the standard idealization of the platform's HMAC-SHA256), verification
succeeds on the unaltered body with the correctly recomputed MAC, and fails on
any body differing from the one over which the provided MAC was computed. -/
theorem verifyWebhook_exact_body (mac : JStr → JStr → JStr) (secret : JStr)
    (hinj : ∀ b b', mac secret b = mac secret b' → b = b') (body altered : JStr) :
    verifyWebhook mac secret body (mac secret body) = true ∧
    (altered ≠ body → verifyWebhook mac secret altered (mac secret body) = false) := by
  constructor
  · simp [verifyWebhook]
  · intro hne
    unfold verifyWebhook
    rw [beq_eq_false_iff_ne]
    exact fun heq => hne (hinj _ _ heq)

/-- Witness instantiating C7 with a concrete injective MAC and a one-byte
alteration of the body. -/
theorem verifyWebhook_exact_body_witness :
    (['a', 'x'] : JStr) ≠ ['a', 'b'] ∧
    verifyWebhook (fun _ d => d) ['k'] ['a', 'b'] ['a', 'b'] = true ∧
    verifyWebhook (fun _ d => d) ['k'] ['a', 'x'] ['a', 'b'] = false :=
  have h := verifyWebhook_exact_body (fun _ d => d) ['k'] (fun _ _ hh => hh)
    ['a', 'b'] ['a', 'x']
  ⟨by decide, h.1, h.2 (by decide)⟩

theorem splitOnChar_ne_nil (sep : Char) (l : JStr) : splitOnChar sep l ≠ [] := by
  induction l with
  | nil => simp [splitOnChar]
  | cons c cs ih =>
    simp only [splitOnChar]
    cases hm : splitOnChar sep cs with
    | nil => exact absurd hm ih
    | cons r rs =>
      split
      · simp
      · split <;> simp

theorem splitOnChar_no_sep (sep : Char) (l : JStr) (h : ∀ c ∈ l, c ≠ sep) :
    splitOnChar sep l = [l] := by
  induction l with
  | nil => rfl
  | cons c cs ih =>
    have hcs : ∀ x ∈ cs, x ≠ sep := fun x hx => h x (List.mem_cons_of_mem _ hx)
    have hc : c ≠ sep := h c (List.mem_cons_self _ _)
    simp [splitOnChar, ih hcs, hc]

theorem splitOnChar_append (sep : Char) (a b : JStr) (h : ∀ c ∈ a, c ≠ sep) :
    splitOnChar sep (a ++ sep :: b) = a :: splitOnChar sep b := by
  induction a with
  | nil =>
    cases hm : splitOnChar sep b with
    | nil => exact absurd hm (splitOnChar_ne_nil sep b)
    | cons r rs => simp [splitOnChar, hm]
  | cons c cs ih =>
    have hcs : ∀ x ∈ cs, x ≠ sep := fun x hx => h x (List.mem_cons_of_mem _ hx)
    have hc : c ≠ sep := h c (List.mem_cons_self _ _)
    simp [splitOnChar, ih hcs, hc]

theorem joinChar_single (sep : Char) (l : JStr) : joinChar sep [l] = l := by
  simp [joinChar, List.intercalate]

theorem hexVal_toHexChar : ∀ n, n < 16 → hexVal (toHexChar n) = n := by decide

theorem toHexChar_ne_colon : ∀ n, n < 16 → toHexChar n ≠ ':' := by decide

theorem byteToHex_no_colon (b : Nat) (hb : b < 256) : ∀ c ∈ byteToHex b, c ≠ ':' := by
  intro c hc
  have h1 : b / 16 < 16 := by omega
  have h2 : b % 16 < 16 := Nat.mod_lt _ (by norm_num)
  simp only [byteToHex, List.mem_cons, List.not_mem_nil, or_false] at hc
  rcases hc with hc | hc <;> subst hc
  · exact toHexChar_ne_colon _ h1
  · exact toHexChar_ne_colon _ h2

theorem bytesToHex_no_colon (l : List Nat) (hl : ∀ b ∈ l, b < 256) :
    ∀ c ∈ bytesToHex l, c ≠ ':' := by
  induction l with
  | nil => intro c hc; simp [bytesToHex] at hc
  | cons b bs ih =>
    intro c hc
    simp only [bytesToHex, List.mem_append] at hc
    rcases hc with hc | hc
    · exact byteToHex_no_colon b (hl b (by simp)) c hc
    · exact ih (fun x hx => hl x (by simp [hx])) c hc

theorem hexToBytes_bytesToHex (l : List Nat) (hl : ∀ b ∈ l, b < 256) :
    hexToBytes (bytesToHex l) = l := by
  induction l with
  | nil => rfl
  | cons b bs ih =>
    have hb := hl b (by simp)
    have h1 : b / 16 < 16 := by omega
    have h2 : b % 16 < 16 := Nat.mod_lt _ (by norm_num)
    have ih' := ih (fun x hx => hl x (by simp [hx]))
    have hstep : hexToBytes (bytesToHex (b :: bs))
        = (hexVal (toHexChar (b / 16)) * 16 + hexVal (toHexChar (b % 16)))
            :: hexToBytes (bytesToHex bs) := rfl
    rw [hstep, ih', hexVal_toHexChar _ h1, hexVal_toHexChar _ h2]
    have hdm : b / 16 * 16 + b % 16 = b := by omega
    rw [hdm]

/-- C8: for every plaintext byte string (empty included), the `decrypt` of the
`encrypt` output recovers the plaintext, for any AES core `cipherEnc` with
inverse `cipherDec` and any IV: the hex-encoded IV is prefixed with the `':'`
delimiter, the hex alphabet never contains the delimiter, and `decrypt`
re-assembles exactly the ciphertext hex before inverting.  The plaintext may
freely contain the delimiter byte, since only hex-encoded material surrounds
the delimiter. -/
theorem decrypt_encrypt_roundtrip (cipherEnc cipherDec : List Nat → List Nat → List Nat)
    (hinv : ∀ iv y, cipherDec iv (cipherEnc iv y) = y) (iv x : List Nat)
    (hiv : ∀ b ∈ iv, b < 256) (hct : ∀ b ∈ cipherEnc iv x, b < 256) :
    decrypt cipherDec (encrypt cipherEnc iv x) = x := by
  have hsplit : splitOnChar ':' (bytesToHex iv ++ ':' :: bytesToHex (cipherEnc iv x))
      = bytesToHex iv :: splitOnChar ':' (bytesToHex (cipherEnc iv x)) :=
    splitOnChar_append ':' _ _ (bytesToHex_no_colon iv hiv)
  have hsingle : splitOnChar ':' (bytesToHex (cipherEnc iv x))
      = [bytesToHex (cipherEnc iv x)] :=
    splitOnChar_no_sep ':' _ (bytesToHex_no_colon _ hct)
  simp [decrypt, encrypt, hsplit, hsingle, joinChar_single,
    hexToBytes_bytesToHex iv hiv, hexToBytes_bytesToHex _ hct, hinv]

/-- Witness instantiating C8 on a concrete plaintext containing the delimiter
byte (58 is `':'`). -/
theorem decrypt_encrypt_roundtrip_witness :
    (∀ b ∈ ([0, 255] : List Nat), b < 256) ∧
    decrypt (fun _ y => y) (encrypt (fun _ y => y) [0, 255] [97, 58, 99])
      = [97, 58, 99] :=
  ⟨by decide,
   decrypt_encrypt_roundtrip (fun _ y => y) (fun _ y => y) (fun _ _ => rfl)
     [0, 255] [97, 58, 99] (by decide) (by decide)⟩

theorem getLogsByStore_updateLastUsed (db : DB) (i sid limit offset : Nat) :
    getLogsByStore (updateLastUsed db i) sid limit offset
      = getLogsByStore db sid limit offset := rfl

theorem getActivitySummary_updateLastUsed (db : DB) (i sid hours : Nat) :
    getActivitySummary (updateLastUsed db i) sid hours
      = getActivitySummary db sid hours := rfl

/-- C10: the `GET /api/logs` and `GET /api/stats` routes attach no scope
middleware: any two credentials of the same tenant that pass credential
resolution get identical, successful outcomes — the tenant's activity data —
regardless of how their scope sets differ. -/
theorem logs_stats_no_scope_requirement (cm : CryptoModel) (db : DB)
    (k1 s1 k2 s2 : JStr) (hk1 : k1 ≠ []) (hs1 : s1 ≠ []) (hk2 : k2 ≠ []) (hs2 : s2 ≠ [])
    (kd1 kd2 : KeyData) (h1 : getApiKeyByKey cm db k1 = some kd1)
    (h2 : getApiKeyByKey cm db k2 = some kd2) (hsid : kd1.store_id = kd2.store_id)
    (limit offset hours : Nat) :
    logsEndpoint cm db false (some k1) (some s1) limit offset
      = (200, getLogsByStore db kd1.store_id limit offset) ∧
    logsEndpoint cm db false (some k2) (some s2) limit offset
      = (200, getLogsByStore db kd1.store_id limit offset) ∧
    statsEndpoint cm db false (some k1) (some s1) hours
      = (200, getActivitySummary db kd1.store_id hours) ∧
    statsEndpoint cm db false (some k2) (some s2) hours
      = (200, getActivitySummary db kd1.store_id hours) := by
  have e1 := (verifyApiKey_resolved cm db k1 s1 hk1 hs1 kd1 h1).2
  have e2 := (verifyApiKey_resolved cm db k2 s2 hk2 hs2 kd2 h2).2
  refine ⟨?_, ?_, ?_, ?_⟩
  · unfold logsEndpoint
    rw [e1]
    rfl
  · unfold logsEndpoint
    rw [e2, ← hsid]
    rfl
  · unfold statsEndpoint
    rw [e1]
    rfl
  · unfold statsEndpoint
    rw [e2, ← hsid]
    rfl

/-- Second credential fixture of the same store with a disjoint scope set. -/
def keyRow1 : ApiKeyRow :=
  { id := 2, store_id := 1, api_key := 'H' :: "sk_two".data,
    api_secret := 'E' :: "othersecret".data, name := "Portal B".data,
    scopes := "write_products".data, is_active := true, last_used_at := none,
    created_at := 1 }

/-- Database fixture with two credentials of the same store whose scope sets
have empty intersection. -/
def db1 : DB :=
  { stores := [store0], api_keys := [keyRow0, keyRow1], sync_logs := [log0],
    webhooks := [], now := 100, nextKeyId := 3 }

/-- Joined row resolved for `sk_two` in `db1`. -/
def kd1 : KeyData :=
  { id := 2, store_id := 1, api_key := 'H' :: "sk_two".data,
    api_secret := 'E' :: "othersecret".data, name := "Portal B".data,
    scopes := "write_products".data, is_active := true,
    shop_domain := "shop1.myshopify.com".data, access_token := "tok".data }

/-- Witness instantiating C10 on two same-tenant credentials with disjoint
scope sets. -/
theorem logs_stats_no_scope_requirement_witness :
    getApiKeyByKey cm0 db1 ("sk_live".data) = some kd0 ∧
    getApiKeyByKey cm0 db1 ("sk_two".data) = some kd1 ∧
    logsEndpoint cm0 db1 false (some ("sk_live".data)) (some ("x".data)) 100 0
      = (200, getLogsByStore db1 1 100 0) ∧
    logsEndpoint cm0 db1 false (some ("sk_two".data)) (some ("y".data)) 100 0
      = (200, getLogsByStore db1 1 100 0) :=
  have h := logs_stats_no_scope_requirement cm0 db1 ("sk_live".data) ("x".data)
    ("sk_two".data) ("y".data) (by decide) (by decide) (by decide) (by decide)
    kd0 kd1 (by decide) (by decide) (by decide) 100 0 24
  ⟨by decide, by decide, h.1, h.2.1⟩

end ShopifySync
